import Mathlib

set_option maxHeartbeats 1000000

/-! Shallow embedding of the svg2polylines path-to-polyline pipeline.

Coordinates are modelled as rationals: on the values the development reasons
about, the source performs only copies, additions, subtractions and
comparisons against the tolerance, which the rational model reflects exactly.
The external collaborators are abstracted at their interface boundary: the
lyon Bézier flattener enters as an explicit function parameter (its output
points, already converted back to `f64`, are what the accumulator loop
consumes), and the svgparser scanner/lexer as pre-tokenised event and token
lists.  `Except.error` models either a returned `Err` or a panic; each
definition's comment says which. -/

/-- Absolute value on ℚ, the model of `f64::abs` (an explicit conditional
rather than the lattice-derived `|·|`, for the sake of evaluation). -/
def ratAbs (q : ℚ) : ℚ := if q < 0 then -q else q

/-- Tolerance constant `FLATTENING_TOLERANCE = 0.5f32` (exact in binary). -/
def FLATTENING_TOLERANCE : ℚ := mkRat 1 2

/-- A CoordinatePair consists of an x and y coordinate (source: two `f64`). -/
structure CoordinatePair where
  x : ℚ
  y : ℚ
  deriving DecidableEq, Repr

/-- Constructor `CoordinatePair::new`. -/
def CoordinatePair.new (x y : ℚ) : CoordinatePair := ⟨x, y⟩

/-- A polyline is a vector of `CoordinatePair` instances. -/
abbrev Polyline := List CoordinatePair

/-- The subpath accumulator `CurrentLine`: the in-progress polyline and the
start coordinate recorded by the last successful close. -/
structure CurrentLine where
  line : Polyline
  prev_end : Option CoordinatePair
  deriving DecidableEq, Repr

namespace CurrentLine

/-- Constructor `CurrentLine::new`. -/
def new : CurrentLine := ⟨[], none⟩

/-- Embedding of `CurrentLine::add_absolute`: push the pair. -/
def add_absolute (cl : CurrentLine) (pair : CoordinatePair) : CurrentLine :=
  { cl with line := cl.line ++ [pair] }

/-- Embedding of `CurrentLine::add_relative`: resolve against the last point
of the in-progress line, else against `prev_end`, else use the pair as is. -/
def add_relative (cl : CurrentLine) (pair : CoordinatePair) : CurrentLine :=
  match cl.line.getLast? with
  | some last => cl.add_absolute (CoordinatePair.new (last.x + pair.x) (last.y + pair.y))
  | none =>
    match cl.prev_end with
    | some last => cl.add_absolute (CoordinatePair.new (last.x + pair.x) (last.y + pair.y))
    | none => cl.add_absolute pair

/-- Embedding of `CurrentLine::last_pair`. -/
def last_pair (cl : CurrentLine) : Option CoordinatePair := cl.line.getLast?

/-- Embedding of `CurrentLine::add`: the near-duplicate filter (the `addit`
flag) compares the supplied pair as given against the last stored pair, then
dispatches on the `abs` flag. -/
def add (cl : CurrentLine) (abs : Bool) (pair : CoordinatePair) : CurrentLine :=
  match cl.last_pair with
  | some prev =>
      if ratAbs (pair.x - prev.x) < FLATTENING_TOLERANCE ∧ ratAbs (pair.y - prev.y) < FLATTENING_TOLERANCE then
        cl
      else if abs then cl.add_absolute pair else cl.add_relative pair
  | none => if abs then cl.add_absolute pair else cl.add_relative pair

/-- Embedding of `CurrentLine::is_valid`: more than one coordinate pair. -/
def is_valid (cl : CurrentLine) : Bool := decide (1 < cl.line.length)

/-- Embedding of `CurrentLine::last_x`. -/
def last_x (cl : CurrentLine) : Option ℚ := cl.line.getLast?.map (fun p => p.x)

/-- Embedding of `CurrentLine::last_y`. -/
def last_y (cl : CurrentLine) : Option ℚ := cl.line.getLast?.map (fun p => p.y)

/-- Embedding of `CurrentLine::close`.  The `Except` component is the Rust
`Result`; the first component is the state after the call (the Rust method
leaves `self` untouched on the error path). -/
def close (cl : CurrentLine) : CurrentLine × Except String Unit :=
  match cl.line with
  | first :: _ :: _ =>
      ({ line := cl.line ++ [first], prev_end := some first }, Except.ok ())
  | _ => (cl, Except.error "Lines with less than 2 coordinate pairs cannot be closed.")

/-- Embedding of `CurrentLine::len`. -/
def len (cl : CurrentLine) : Nat := cl.line.length

/-- Embedding of `CurrentLine::finish`: swap the internal polyline with an
empty one and hand the old one out. -/
def finish (cl : CurrentLine) : Polyline × CurrentLine :=
  (cl.line, { cl with line := [] })

end CurrentLine

/-- Path tokens as produced by the external svgparser path tokenizer: the
variants the accumulator matches on, plus a catch-all for the commands the
`d @ _` arm rejects (arcs, smooth shorthands, ...). -/
inductive PathToken where
  | MoveTo (abs : Bool) (x y : ℚ)
  | LineTo (abs : Bool) (x y : ℚ)
  | HorizontalLineTo (abs : Bool) (x : ℚ)
  | VerticalLineTo (abs : Bool) (y : ℚ)
  | CurveTo (abs : Bool) (x1 y1 x2 y2 x y : ℚ)
  | Quadratic (abs : Bool) (x1 y1 x y : ℚ)
  | ClosePath
  | Unsupported (desc : String)
  deriving DecidableEq, Repr

/-- The external lyon flattener, abstracted as a parameter: given the control
points of a cubic or quadratic segment (after the source's relative-to-
absolute resolution) it yields the point sequence visited by the
`for point in curve.flattened(FLATTENING_TOLERANCE)` loop.  The source's
round trip through `f32` is part of this abstracted behaviour. -/
structure Flattener where
  cubic : CoordinatePair → CoordinatePair → CoordinatePair → CoordinatePair → List CoordinatePair
  quadratic : CoordinatePair → CoordinatePair → CoordinatePair → List CoordinatePair

/-- Trivial flattener used for concrete evaluations on curve-free streams. -/
def flatNone : Flattener := ⟨fun _ _ _ _ => [], fun _ _ _ => []⟩

/-- Embedding of `parse_path_token`; `Except.error` models the `Err` return
value.  In the `MoveTo` arm the source calls `finish()` first and only then
asks `current_line.is_valid()`, i.e. it tests the just-emptied buffer. -/
def parse_path_token (F : Flattener) (data : PathToken) (current_line : CurrentLine)
    (lines : List Polyline) : Except String (CurrentLine × List Polyline) :=
  match data with
  | .MoveTo abs x y =>
      let pcl := current_line.finish
      let lines1 := if pcl.2.is_valid then lines ++ [pcl.1] else lines
      Except.ok (pcl.2.add abs (CoordinatePair.new x y), lines1)
  | .LineTo abs x y =>
      Except.ok (current_line.add abs (CoordinatePair.new x y), lines)
  | .HorizontalLineTo abs x =>
      match current_line.last_y, abs with
      | some y, true => Except.ok (current_line.add_absolute (CoordinatePair.new x y), lines)
      | some _, false => Except.ok (current_line.add_relative (CoordinatePair.new x 0), lines)
      | none, _ => Except.error "Invalid state: HorizontalLineTo on emtpy CurrentLine"
  | .VerticalLineTo abs y =>
      match current_line.last_x, abs with
      | some x, true => Except.ok (current_line.add_absolute (CoordinatePair.new x y), lines)
      | some _, false => Except.ok (current_line.add_relative (CoordinatePair.new 0 y), lines)
      | none, _ => Except.error "Invalid state: VerticalLineTo on emtpy CurrentLine"
  | .CurveTo abs x1 y1 x2 y2 x y =>
      match current_line.last_pair with
      | none => Except.error "Invalid state: CurveTo on empty CurrentLine"
      | some current =>
          let pts :=
            if abs then
              F.cubic current (CoordinatePair.new x1 y1) (CoordinatePair.new x2 y2)
                (CoordinatePair.new x y)
            else
              F.cubic current (CoordinatePair.new (current.x + x1) (current.y + y1))
                (CoordinatePair.new (current.x + x2) (current.y + y2))
                (CoordinatePair.new (current.x + x) (current.y + y))
          Except.ok (pts.foldl (fun cl p => cl.add_absolute p) current_line, lines)
  | .Quadratic abs x1 y1 x y =>
      match current_line.last_pair with
      | none => Except.error "Invalid state: Quadratic on empty CurrentLine"
      | some current =>
          let pts :=
            if abs then
              F.quadratic current (CoordinatePair.new x1 y1) (CoordinatePair.new x y)
            else
              F.quadratic current (CoordinatePair.new (current.x + x1) (current.y + y1))
                (CoordinatePair.new (current.x + x) (current.y + y))
          Except.ok (pts.foldl (fun cl p => cl.add_absolute p) current_line, lines)
  | .ClosePath =>
      match current_line.close with
      | (_, Except.error e) => Except.error ("Invalid state: " ++ e)
      | (cl2, Except.ok _) => Except.ok (cl2, lines)
  | .Unsupported desc => Except.error ("Unsupported token: " ++ desc)

/-- The token loop of `parse_path`: the `.unwrap()` on a failing
`parse_path_token` is a panic, modelled as `Except.error`. -/
def processTokens (F : Flattener) : List PathToken → CurrentLine → List Polyline →
    Except String (CurrentLine × List Polyline)
  | [], cl, lines => Except.ok (cl, lines)
  | t :: ts, cl, lines =>
      match parse_path_token F t cl lines with
      | Except.error e => Except.error e
      | Except.ok (cl2, lines2) => processTokens F ts cl2 lines2

/-- Embedding of the svg2polylines crate's `parse_path`: run the token loop,
then flush the trailing line when it is valid. -/
def parse_path (F : Flattener) (toks : List PathToken) : Except String (List Polyline) :=
  match processTokens F toks CurrentLine.new [] with
  | Except.error e => Except.error e
  | Except.ok (line, lines) =>
      Except.ok (if line.is_valid then lines ++ [line.finish.1] else lines)

/-- Effective triangle area used by the Visvalingam–Whyatt criterion. -/
def triArea (a b c : CoordinatePair) : ℚ :=
  ratAbs ((b.x - a.x) * (c.y - a.y) - (c.x - a.x) * (b.y - a.y)) / 2

/-- Areas of the interior vertices of a polyline, in order. -/
def interiorAreas : Polyline → List ℚ
  | a :: b :: c :: rest => triArea a b c :: interiorAreas (b :: c :: rest)
  | _ => []

/-- Position and value of the least element, first occurrence on ties. -/
def minWithIdx : List ℚ → Option (Nat × ℚ)
  | [] => none
  | a :: rest =>
      match minWithIdx rest with
      | none => some (0, a)
      | some (j, m) => if m < a then some (j + 1, m) else some (0, a)

/-- One elimination round of Visvalingam–Whyatt: remove the interior vertex
of least effective area when that area is below the threshold. -/
def vwStep (eps : ℚ) (l : Polyline) : Option Polyline :=
  match minWithIdx (interiorAreas l) with
  | none => none
  | some (j, a) => if a < eps then some (l.eraseIdx (j + 1)) else none

/-- Fuelled Visvalingam–Whyatt elimination loop. -/
def vwGo (eps : ℚ) : Nat → Polyline → Polyline
  | 0, l => l
  | n + 1, l =>
      if l.length < 3 then l
      else
        match vwStep eps l with
        | some l2 => vwGo eps n l2
        | none => l

/-- Model of the external geo crate's `simplifyvw` (Visvalingam–Whyatt):
repeatedly remove the interior vertex of least effective area while that
area is below `eps`.  Endpoints are never candidates for removal, which is
the only property of the external algorithm this development relies on. -/
def simplifyvw (eps : ℚ) (l : Polyline) : Polyline := vwGo eps l.length l

/-- Loop body of `simplify` for one polyline: length ≤ 1 contributes nothing;
length 2 is kept only under the source's test — whose second conjunct
compares `cp[1].y` with itself — and contributes nothing otherwise;
length ≥ 3 goes through the Visvalingam–Whyatt pass with the tolerance as
threshold. -/
def simplifyOne (cp : Polyline) : List Polyline :=
  if cp.length ≤ 1 then []
  else if cp.length ≤ 2 then
    match cp with
    | p0 :: p1 :: _ =>
        if FLATTENING_TOLERANCE < ratAbs (p1.x - p0.x) ∧ FLATTENING_TOLERANCE < ratAbs (p1.y - p1.y) then
          [([CoordinatePair.new p0.x p0.y, CoordinatePair.new p1.x p1.y] : Polyline)]
        else []
    | _ => []
  else [simplifyvw FLATTENING_TOLERANCE cp]

/-- Embedding of `simplify`: run the loop body over every input polyline,
appending whatever it pushes, in order. -/
def simplify : List Polyline → List Polyline
  | [] => []
  | cp :: rest => simplifyOne cp ++ simplify rest

/-- Events from the external svgparser document tokenizer, pre-tokenised: an
attribute carrying its name and (when it is a `d` attribute) the path tokens
of its value, a scanner error (`Err` item of the token iterator), or any
other token kind. -/
inductive SvgEvent where
  | attr (name : String) (toks : List PathToken)
  | scanError (msg : String)
  | other
  deriving Repr

/-- The `filter_map` / `flat_map` / `collect` stage of the svg2polylines
crate's `parse`: only attributes named `d` contribute; scanner errors and
every other token fall into the `_ => None` arm and are skipped; a panic
inside `parse_path` propagates. -/
def parsePaths (F : Flattener) : List SvgEvent → Except String (List Polyline)
  | [] => Except.ok []
  | SvgEvent.attr name toks :: rest =>
      if name = "d" then
        match parse_path F toks with
        | Except.error e => Except.error e
        | Except.ok ls =>
            match parsePaths F rest with
            | Except.error e => Except.error e
            | Except.ok more => Except.ok (ls ++ more)
      else parsePaths F rest
  | SvgEvent.scanError _ :: rest => parsePaths F rest
  | SvgEvent.other :: rest => parsePaths F rest

/-- Embedding of the svg2polylines crate's top-level `parse`: collect the
polylines of every `d` attribute, then — the `stratege == "simplify"` branch
being the one taken — return the simplified list.  The Rust function returns
a plain `Vec<Polyline>`; `Except.error` here models a panic escaping the
call, not a returned `Result`. -/
def parse (F : Flattener) (events : List SvgEvent) : Except String (List Polyline) :=
  match parsePaths F events with
  | Except.error e => Except.error e
  | Except.ok polylines => Except.ok (simplify polylines)

/-- Observable outcome of the FFI call: the returned status code and the
values held by the two out-parameters after the call. -/
structure FfiOut where
  ret : Nat
  out_polylines : List Polyline
  out_len : Nat
  deriving DecidableEq, Repr

/-- Embedding of the FFI entry point `svg_str_to_polylines`.  The two
out-parameters start at the caller-supplied values and are written only in
the nonempty branch; `Except.error` models a panic escaping the FFI
boundary. -/
def svg_str_to_polylines (F : Flattener) (events : List SvgEvent)
    (old_polylines : List Polyline) (old_len : Nat) : Except String FfiOut :=
  match parse F events with
  | Except.error e => Except.error e
  | Except.ok vec =>
      if vec.length > 0 then
        Except.ok ⟨0, vec, vec.length⟩
      else
        Except.ok ⟨1, old_polylines, old_len⟩

namespace V1

/-! Embedding of the older crate at the repository root (`src/src/lib.rs`),
whose `parse` still has the `Result` signature.  Its `CoordinatePair` is the
tuple `(f64, f64)`; the structure above is reused for it. -/

/-- Segment data of the old svgparser version used by the root crate. -/
inductive SegmentData where
  | MoveTo (x y : ℚ)
  | LineTo (x y : ℚ)
  | HorizontalLineTo (x : ℚ)
  | VerticalLineTo (y : ℚ)
  | other (desc : String)
  deriving Repr

/-- The root crate's `CurrentLine`: only the in-progress polyline. -/
structure CurrentLine where
  line : Polyline
  deriving Repr

/-- Constructor `CurrentLine::new` of the root crate. -/
def CurrentLine.new : CurrentLine := ⟨[]⟩

/-- The root crate's `CurrentLine::add`: unconditional push. -/
def CurrentLine.add (cl : CurrentLine) (pair : CoordinatePair) : CurrentLine :=
  ⟨cl.line ++ [pair]⟩

/-- The root crate's `CurrentLine::is_valid`. -/
def CurrentLine.is_valid (cl : CurrentLine) : Bool := decide (1 < cl.line.length)

/-- The root crate's `CurrentLine::last_x`. -/
def CurrentLine.last_x (cl : CurrentLine) : Option ℚ := cl.line.getLast?.map (fun p => p.x)

/-- The root crate's `CurrentLine::last_y`. -/
def CurrentLine.last_y (cl : CurrentLine) : Option ℚ := cl.line.getLast?.map (fun p => p.y)

/-- The root crate's `CurrentLine::finish`. -/
def CurrentLine.finish (cl : CurrentLine) : Polyline × CurrentLine := (cl.line, ⟨[]⟩)

/-- Embedding of the root crate's `parse_segment_data`: here `is_valid` is
asked before `finish`, so a completed subpath is committed. -/
def parse_segment_data : SegmentData → CurrentLine → List Polyline →
    Except String (CurrentLine × List Polyline)
  | .MoveTo x y, cl, lines =>
      if cl.is_valid then
        let pcl := cl.finish
        Except.ok (pcl.2.add (CoordinatePair.new x y), lines ++ [pcl.1])
      else Except.ok (cl.add (CoordinatePair.new x y), lines)
  | .LineTo x y, cl, lines => Except.ok (cl.add (CoordinatePair.new x y), lines)
  | .HorizontalLineTo x, cl, lines =>
      match cl.last_y with
      | some y => Except.ok (cl.add (CoordinatePair.new x y), lines)
      | none => Except.error "Invalid state: HorizontalLineTo on emtpy CurrentLine"
  | .VerticalLineTo y, cl, lines =>
      match cl.last_x with
      | some x => Except.ok (cl.add (CoordinatePair.new x y), lines)
      | none => Except.error "Invalid state: VerticalLineTo on emtpy CurrentLine"
  | .other desc, _, _ => Except.error ("Unsupported segment data: " ++ desc)

/-- One `parse_next` outcome of the old path tokenizer: a parsed segment or
a lexical error; end of stream is the end of the list. -/
inductive PathItem where
  | seg (s : SegmentData)
  | lexError (msg : String)

/-- Loop of the root crate's `parse_path`: a lexical error breaks the loop
(local recovery, the lines committed so far are returned), while a failing
`parse_segment_data` is `.unwrap()`ed — a panic, modelled as `Except.error`.
The trailing current line is never flushed: the source returns `lines`
directly after the loop. -/
def parse_path_loop : List PathItem → CurrentLine → List Polyline →
    Except String (List Polyline)
  | [], _, lines => Except.ok lines
  | PathItem.lexError _ :: _, _, lines => Except.ok lines
  | PathItem.seg s :: rest, cl, lines =>
      match parse_segment_data s cl lines with
      | Except.error e => Except.error e
      | Except.ok (cl2, lines2) => parse_path_loop rest cl2 lines2

/-- Embedding of the root crate's `parse_path`. -/
def parse_path (items : List PathItem) : Except String (List Polyline) :=
  parse_path_loop items CurrentLine.new []

/-- Scanner events of the root crate's `parse` loop. -/
inductive Event where
  | attr (name : String) (items : List PathItem)
  | scanError (msg : String)
  | other

/-- Embedding of the root crate's `parse`: a scanner error returns `Err`
immediately (this is the returned `Result`, not a panic); `d` attributes
extend the result through `parse_path`, whose panics propagate; everything
else is skipped. -/
def parse : List Event → Except String (List Polyline)
  | [] => Except.ok []
  | Event.scanError msg :: _ => Except.error msg
  | Event.attr name items :: rest =>
      if name = "d" then
        match parse_path items with
        | Except.error e => Except.error e
        | Except.ok ls =>
            match parse rest with
            | Except.error e => Except.error e
            | Except.ok more => Except.ok (ls ++ more)
      else parse rest
  | Event.other :: rest => parse rest

end V1

/-! Helper lemmas shared by the claim theorems. -/

/-- The composite token stream of a MoveTo-only `d` attribute: per the SVG
grammar (and the external lexer) the first pair is the MoveTo, every further
pair is an implicit LineTo repetition. -/
def moveToOnlyTokens : List CoordinatePair → List PathToken
  | [] => []
  | p :: rest => PathToken.MoveTo true p.x p.y :: rest.map (fun q => PathToken.LineTo true q.x q.y)

/-- Consecutive points differ by at least the tolerance in x or in y, so the
accumulation filter of `CurrentLine.add` keeps every one of them. -/
abbrev wellSeparated (ps : List CoordinatePair) : Prop :=
  List.Chain' (fun a b =>
    ¬(ratAbs (b.x - a.x) < FLATTENING_TOLERANCE ∧ ratAbs (b.y - a.y) < FLATTENING_TOLERANCE)) ps

lemma FLATTENING_TOLERANCE_eq : FLATTENING_TOLERANCE = 1 / 2 := by
  unfold FLATTENING_TOLERANCE
  rw [Rat.mkRat_eq_div]
  norm_num

lemma add_absolute_prev_end (cl : CurrentLine) (pair : CoordinatePair) :
    (cl.add_absolute pair).prev_end = cl.prev_end := rfl

lemma add_relative_prev_end (cl : CurrentLine) (pair : CoordinatePair) :
    (cl.add_relative pair).prev_end = cl.prev_end := by
  cases hg : cl.line.getLast? with
  | some last => simp [CurrentLine.add_relative, hg, CurrentLine.add_absolute]
  | none =>
      cases hp : cl.prev_end with
      | some last => simp [CurrentLine.add_relative, hg, hp, CurrentLine.add_absolute]
      | none => simp [CurrentLine.add_relative, hg, hp, CurrentLine.add_absolute]

lemma add_prev_end (cl : CurrentLine) (abs : Bool) (pair : CoordinatePair) :
    (cl.add abs pair).prev_end = cl.prev_end := by
  unfold CurrentLine.add
  cases hg : cl.last_pair with
  | some prev =>
      by_cases h : ratAbs (pair.x - prev.x) < FLATTENING_TOLERANCE ∧
          ratAbs (pair.y - prev.y) < FLATTENING_TOLERANCE
      · simp [h]
      · cases abs <;> simp [h, add_absolute_prev_end, add_relative_prev_end]
  | none => cases abs <;> simp [add_absolute_prev_end, add_relative_prev_end]

lemma foldl_add_absolute_line (pts : List CoordinatePair) :
    ∀ cl : CurrentLine,
      (pts.foldl (fun c p => c.add_absolute p) cl).line = cl.line ++ pts := by
  induction pts with
  | nil => intro cl; simp
  | cons p pts ih =>
      intro cl
      rw [List.foldl_cons, ih]
      simp [CurrentLine.add_absolute]

lemma eraseIdx_length_ge {α : Type} (l : List α) (i : Nat) :
    l.length - 1 ≤ (l.eraseIdx i).length := by
  rw [List.length_eraseIdx]
  split <;> omega

lemma vwStep_shape (eps : ℚ) (l l2 : Polyline) (h : vwStep eps l = some l2) :
    ∃ i, l2 = l.eraseIdx i := by
  unfold vwStep at h
  split at h
  · cases h
  · split at h
    · exact ⟨_, (Option.some.inj h).symm⟩
    · cases h

lemma vwGo_length_ge (eps : ℚ) (n : Nat) :
    ∀ l : Polyline, 2 ≤ l.length → 2 ≤ (vwGo eps n l).length := by
  induction n with
  | zero => intro l h; simpa [vwGo] using h
  | succ n ih =>
      intro l h
      unfold vwGo
      by_cases hlen : l.length < 3
      · simpa [hlen] using h
      · rw [if_neg hlen]
        cases hs : vwStep eps l with
        | none => simpa using h
        | some l2 =>
            obtain ⟨i, hi⟩ := vwStep_shape eps l l2 hs
            refine ih l2 ?_
            have := eraseIdx_length_ge l i
            rw [hi]
            omega

lemma simplifyOne_mem_length (cp : Polyline) : ∀ q ∈ simplifyOne cp, 2 ≤ q.length := by
  intro q hq
  rcases cp with _ | ⟨p0, _ | ⟨p1, t⟩⟩
  · simp [simplifyOne] at hq
  · simp [simplifyOne] at hq
  · unfold simplifyOne at hq
    by_cases h2 : (p0 :: p1 :: t).length ≤ 2
    · rw [if_neg (by simp), if_pos h2] at hq
      dsimp only at hq
      by_cases hc : FLATTENING_TOLERANCE < ratAbs (p1.x - p0.x) ∧
          FLATTENING_TOLERANCE < ratAbs (p1.y - p1.y)
      · rw [if_pos hc] at hq
        simp only [List.mem_singleton] at hq
        subst hq
        simp
      · rw [if_neg hc] at hq
        simp at hq
    · rw [if_neg (by simp), if_neg h2] at hq
      simp only [List.mem_singleton] at hq
      subst hq
      exact vwGo_length_ge _ _ _ (by simp)

lemma simplify_mem_length : ∀ pls : List Polyline, ∀ q ∈ simplify pls, 2 ≤ q.length := by
  intro pls
  induction pls with
  | nil => simp [simplify]
  | cons cp rest ih =>
      intro q hq
      simp only [simplify] at hq
      rcases List.mem_append.mp hq with hq | hq
      · exact simplifyOne_mem_length cp q hq
      · exact ih q hq

lemma simplify_pair_eq_nil (a b : CoordinatePair) : simplify [([a, b] : Polyline)] = [] := by
  simp [simplify, simplifyOne]
  intro _
  rw [FLATTENING_TOLERANCE_eq]
  norm_num [ratAbs]

lemma processTokens_lineTo (F : Flattener) (qs : List CoordinatePair) :
    ∀ (cl : CurrentLine) (lines : List Polyline) (a : CoordinatePair),
      cl.line.getLast? = some a →
      wellSeparated (a :: qs) →
      processTokens F (qs.map (fun q => PathToken.LineTo true q.x q.y)) cl lines =
        Except.ok ({ cl with line := cl.line ++ qs }, lines) := by
  induction qs with
  | nil => intro cl lines a _ _; simp [processTokens]
  | cons q qs ih =>
      intro cl lines a hlast hsep
      obtain ⟨hrel, hchain⟩ := List.chain'_cons.mp hsep
      have step : processTokens F ((q :: qs).map (fun q => PathToken.LineTo true q.x q.y)) cl lines
          = processTokens F (qs.map (fun q => PathToken.LineTo true q.x q.y))
              (cl.add true q) lines := rfl
      have hadd : cl.add true q = cl.add_absolute q := by
        unfold CurrentLine.add
        rw [show cl.last_pair = some a from hlast]
        simp [hrel]
      rw [step, hadd]
      rw [ih (cl.add_absolute q) lines q (by simp [CurrentLine.add_absolute]) hchain]
      simp [CurrentLine.add_absolute]

/-- C1: evaluation of `parse_path` at the exact token stream of the crate's
own unit test `test_parse_segment_data_multiple` (M 1,2 L 2,3 M 1,3 L 2,4
M 1,4 L 2,5 M 1,5).  Because the `MoveTo` arm calls `finish()` before asking
`is_valid()`, the validity check runs on the just-emptied buffer and no
completed subpath is ever committed: the result is the empty list, where the
claim — and the test, which asserts three committed polylines — requires the
three completed subpaths. -/
theorem parse_path_multiple_moveto_eval :
    parse_path flatNone
      [PathToken.MoveTo true 1 2, PathToken.LineTo true 2 3,
       PathToken.MoveTo true 1 3, PathToken.LineTo true 2 4,
       PathToken.MoveTo true 1 4, PathToken.LineTo true 2 5,
       PathToken.MoveTo true 1 5] = Except.ok [] := by rfl

/-- C2 counterexample: an Unsupported token in the first path element makes
`parse_path` panic (the `.unwrap()`), and the panic propagates out of
`parse`: the document parse aborts, the second path element is never reached
and nothing is returned — where the claim requires a normal return with the
polylines of the other elements. -/
theorem parse_unsupported_panics_cex :
    parse flatNone
      [SvgEvent.attr "d" [PathToken.MoveTo true 0 0, PathToken.LineTo true 10 10,
         PathToken.Unsupported "SmoothQuadratic"],
       SvgEvent.attr "d" [PathToken.MoveTo true 0 0, PathToken.LineTo true 20 0,
         PathToken.LineTo true 20 20]] =
      Except.error "Unsupported token: SmoothQuadratic" := by rfl

/-- C2 amended: an error from interpreting a path token (Unsupported command
or invalid state) is not recovered locally: `parse_path` unwraps it, and the
resulting panic propagates through `parse`, aborting the whole document
parse — subsequent path elements are not parsed and no polylines are
returned. -/
theorem parse_path_error_propagates (F : Flattener) (toks : List PathToken)
    (post : List SvgEvent) (e : String) (h : parse_path F toks = Except.error e) :
    parse F (SvgEvent.attr "d" toks :: post) = Except.error e := by
  unfold parse parsePaths
  rw [if_pos rfl, h]

/-- Witness for `parse_path_error_propagates` at a concrete input. -/
theorem parse_path_error_propagates_witness :
    parse flatNone [SvgEvent.attr "d" [PathToken.Unsupported "EllipticalArc"]] =
      Except.error "Unsupported token: EllipticalArc" :=
  parse_path_error_propagates flatNone [PathToken.Unsupported "EllipticalArc"] [] _ (by rfl)

/-- C3 counterexample: the svg2polylines crate's `parse` — the top-level
parse operation, the one the FFI layer calls — meets a scanner-level error
and still returns normally with a plain (here empty) polyline list: the
error is silently dropped by the `_ => None` arm instead of being surfaced
to the caller as a `ParseError`. -/
theorem parse_scanError_ignored_cex :
    parse flatNone [SvgEvent.scanError "the scanner failed"] = Except.ok [] := by rfl

/-- C3 amended: only the root crate's `parse` has the `Result` signature and
surfaces a scanner-level error to the caller (first conjunct); the
svg2polylines crate's `parse` returns a bare list and skips scanner error
tokens entirely, continuing with the rest of the document (second
conjunct). -/
theorem parse_scanner_error_behavior :
    (∀ (m : String) (evs : List V1.Event),
        V1.parse (V1.Event.scanError m :: evs) = Except.error m) ∧
    (∀ (F : Flattener) (m : String) (evs : List SvgEvent),
        parse F (SvgEvent.scanError m :: evs) = parse F evs) :=
  ⟨fun _ _ => rfl, fun _ _ _ => rfl⟩

/-- C4: evaluation of `simplify` at a 2-point polyline whose points are 10
units apart in both axes — far beyond the 0.5 tolerance, so the claim
requires it to be kept.  The source's test compares `cp[1].y` with itself
(`(cp[1].y - cp[1].y).abs() > 0.5`, always false), so every 2-point polyline
is dropped. -/
theorem simplify_two_point_dropped_eval :
    simplify [([⟨0, 0⟩, ⟨10, 10⟩] : Polyline)] = [] := by
  simp [simplify, simplifyOne, ratAbs, FLATTENING_TOLERANCE_eq]

/-- C5 counterexample: the MoveTo-only sequence `M 0,0 10,10` (N = 2 pairs;
the lexer renders the repeated pair as an implicit LineTo).  The claim
requires `parse` to yield exactly the one polyline [(0,0),(10,10)], but the
top-level `parse` runs `simplify`, which drops every 2-point polyline, so
the result is empty. -/
theorem parse_moveto_only_cex :
    parse flatNone
      [SvgEvent.attr "d" [PathToken.MoveTo true 0 0, PathToken.LineTo true 10 10]] =
      Except.ok [] := by
  have hsep : wellSeparated [(⟨0, 0⟩ : CoordinatePair), ⟨10, 10⟩] := by
    refine List.chain'_pair.mpr ?_
    rw [FLATTENING_TOLERANCE_eq]
    norm_num [ratAbs]
  have hpp : parse_path flatNone
      [PathToken.MoveTo true 0 0, PathToken.LineTo true 10 10] =
      Except.ok [([⟨0, 0⟩, ⟨10, 10⟩] : Polyline)] := by
    unfold parse_path
    have step1 : processTokens flatNone
        [PathToken.MoveTo true 0 0, PathToken.LineTo true 10 10] CurrentLine.new [] =
        processTokens flatNone [PathToken.LineTo true 10 10]
          (⟨[⟨0, 0⟩], none⟩ : CurrentLine) [] := rfl
    have step2 := processTokens_lineTo flatNone [⟨10, 10⟩]
      ⟨[⟨0, 0⟩], none⟩ [] ⟨0, 0⟩ (by simp) hsep
    simp only [List.map_cons, List.map_nil] at step2
    rw [step1, step2]
    simp [CurrentLine.is_valid, CurrentLine.finish]
  unfold parse parsePaths
  rw [if_pos rfl, hpp]
  rw [show parsePaths flatNone ([] : List SvgEvent) = Except.ok [] from rfl]
  simpa using simplify_pair_eq_nil ⟨0, 0⟩ ⟨10, 10⟩

/-- C5 amended: for every MoveTo-only command sequence with N ≥ 2 coordinate
pairs in which consecutive pairs are separated by at least the tolerance in
x or in y, the accumulator stage `parse_path` yields exactly one polyline of
length N whose points equal the inputs in order, with no rounding and no
point dropped (first conjunct); the top-level `parse` additionally applies
`simplify`, which drops every 2-point polyline (second conjunct), so such an
output does not survive to the caller. -/
theorem parse_path_moveto_only_exact (F : Flattener) (ps : List CoordinatePair)
    (h2 : 2 ≤ ps.length) (hsep : wellSeparated ps) :
    parse_path F (moveToOnlyTokens ps) = Except.ok [ps] ∧
    (∀ a b : CoordinatePair, simplify [([a, b] : Polyline)] = []) := by
  constructor
  · cases ps with
    | nil => simp at h2
    | cons p rest =>
        unfold moveToOnlyTokens parse_path
        have step1 : processTokens F
            (PathToken.MoveTo true p.x p.y :: rest.map (fun q => PathToken.LineTo true q.x q.y))
            CurrentLine.new [] =
            processTokens F (rest.map (fun q => PathToken.LineTo true q.x q.y))
              (⟨[p], none⟩ : CurrentLine) [] := rfl
        rw [step1, processTokens_lineTo F rest ⟨[p], none⟩ [] p (by simp) hsep]
        have hv : (⟨p :: rest, none⟩ : CurrentLine).is_valid = true := by
          simp only [CurrentLine.is_valid, List.length_cons, decide_eq_true_eq]
          simp at h2
          omega
        simp [hv, CurrentLine.finish]
  · intro a b
    exact simplify_pair_eq_nil a b

/-- Witness for `parse_path_moveto_only_exact` at the concrete MoveTo-only
stream `M 0,0 10,10`. -/
theorem parse_path_moveto_only_exact_witness :
    parse_path flatNone (moveToOnlyTokens [⟨0, 0⟩, ⟨10, 10⟩]) =
      Except.ok [([⟨0, 0⟩, ⟨10, 10⟩] : Polyline)] :=
  (parse_path_moveto_only_exact flatNone [⟨0, 0⟩, ⟨10, 10⟩] (by simp)
    (by
      refine List.chain'_pair.mpr ?_
      rw [FLATTENING_TOLERANCE_eq]
      norm_num [ratAbs])).1

/-- C6 counterexample: the buffer holds (10,10) and a relative command
supplies the offset (10,10): the resolved absolute point would be (20,20),
whose deltas from the last point are 10 — far beyond the 0.5 tolerance — so
the claim requires it to be appended.  The filter in `CurrentLine::add`
instead compares the raw offset (10,10) against the absolute point (10,10),
finds both deltas 0, and discards the point (first conjunct); the second
conjunct records that the resolved deltas do exceed the tolerance. -/
theorem add_relative_filter_cex :
    (CurrentLine.add ⟨[⟨10, 10⟩], none⟩ false ⟨10, 10⟩).line =
      [(⟨10, 10⟩ : CoordinatePair)] ∧
    ¬(ratAbs ((10 : ℚ) + 10 - 10) < FLATTENING_TOLERANCE ∧
      ratAbs ((10 : ℚ) + 10 - 10) < FLATTENING_TOLERANCE) := by
  constructor
  · have hc0 : ratAbs (0 : ℚ) < FLATTENING_TOLERANCE := by
      rw [FLATTENING_TOLERANCE_eq]
      norm_num [ratAbs]
    simp [CurrentLine.add, CurrentLine.last_pair, hc0]
  · rw [FLATTENING_TOLERANCE_eq]
    norm_num [ratAbs]

/-- C6 amended: the near-duplicate filter lives only in `CurrentLine::add`
and tests the raw operand pair — for relative commands the unresolved
offset, not the resolved absolute point — against the last appended point
(first two conjuncts: the point is dropped exactly when both raw deltas are
within the tolerance, and otherwise dispatched to the absolute or relative
append).  Points produced by Bézier flattening are appended one by one
through `add_absolute` with no filter (third and fourth conjuncts), as are
the points of absolute H commands (fifth conjunct). -/
theorem add_filter_characterization (F : Flattener) (cl : CurrentLine)
    (abs : Bool) (pair prev : CoordinatePair) (hprev : cl.last_pair = some prev) :
    ((ratAbs (pair.x - prev.x) < FLATTENING_TOLERANCE ∧
        ratAbs (pair.y - prev.y) < FLATTENING_TOLERANCE) → cl.add abs pair = cl) ∧
    (¬(ratAbs (pair.x - prev.x) < FLATTENING_TOLERANCE ∧
        ratAbs (pair.y - prev.y) < FLATTENING_TOLERANCE) →
      cl.add abs pair = if abs then cl.add_absolute pair else cl.add_relative pair) ∧
    (∀ pts : List CoordinatePair,
      (pts.foldl (fun c p => c.add_absolute p) cl).line = cl.line ++ pts) ∧
    (∀ x1 y1 x2 y2 x y lines,
      parse_path_token F (PathToken.CurveTo true x1 y1 x2 y2 x y) cl lines =
        Except.ok ((F.cubic prev (CoordinatePair.new x1 y1) (CoordinatePair.new x2 y2)
          (CoordinatePair.new x y)).foldl (fun c p => c.add_absolute p) cl, lines)) ∧
    (∀ x lines,
      parse_path_token F (PathToken.HorizontalLineTo true x) cl lines =
        Except.ok (cl.add_absolute (CoordinatePair.new x prev.y), lines)) := by
  refine ⟨?_, ?_, ?_, ?_, ?_⟩
  · intro h
    unfold CurrentLine.add
    rw [hprev]
    simp [h]
  · intro h
    unfold CurrentLine.add
    rw [hprev]
    simp [h]
  · intro pts
    exact foldl_add_absolute_line pts cl
  · intro x1 y1 x2 y2 x y lines
    simp only [parse_path_token]
    rw [hprev]
    simp
  · intro x lines
    have hy : cl.last_y = some prev.y := by
      unfold CurrentLine.last_y
      unfold CurrentLine.last_pair at hprev
      rw [hprev]
      rfl
    unfold parse_path_token
    rw [hy]

/-- Witness for `add_filter_characterization`: with last point (0,0) and
absolute pair (10,10), the filter does not fire and the pair is appended. -/
theorem add_filter_characterization_witness :
    CurrentLine.add ⟨[⟨0, 0⟩], none⟩ true ⟨10, 10⟩ =
      CurrentLine.add_absolute ⟨[⟨0, 0⟩], none⟩ ⟨10, 10⟩ := by
  have h := (add_filter_characterization flatNone ⟨[⟨0, 0⟩], none⟩ true ⟨10, 10⟩ ⟨0, 0⟩
    rfl).2.1 (by rw [FLATTENING_TOLERANCE_eq]; norm_num [ratAbs])
  simpa using h

lemma vwGo_of_vwStep_none (eps : ℚ) (n : Nat) (l : Polyline)
    (h : vwStep eps l = none) : vwGo eps n l = l := by
  cases n with
  | zero => rfl
  | succ n =>
      unfold vwGo
      by_cases hlen : l.length < 3
      · rw [if_pos hlen]
      · rw [if_neg hlen, h]

lemma parse_three_point_eval :
    parse flatNone
      [SvgEvent.attr "d" [PathToken.MoveTo true 0 0, PathToken.LineTo true 10 10,
        PathToken.LineTo true 20 0]] =
      Except.ok [([⟨0, 0⟩, ⟨10, 10⟩, ⟨20, 0⟩] : Polyline)] := by
  have hsep : wellSeparated [(⟨0, 0⟩ : CoordinatePair), ⟨10, 10⟩, ⟨20, 0⟩] := by
    refine List.chain'_cons.mpr ⟨?_, List.chain'_pair.mpr ?_⟩ <;>
      (rw [FLATTENING_TOLERANCE_eq]; norm_num [ratAbs])
  have hpp : parse_path flatNone
      [PathToken.MoveTo true 0 0, PathToken.LineTo true 10 10, PathToken.LineTo true 20 0] =
      Except.ok [([⟨0, 0⟩, ⟨10, 10⟩, ⟨20, 0⟩] : Polyline)] := by
    unfold parse_path
    have step1 : processTokens flatNone
        [PathToken.MoveTo true 0 0, PathToken.LineTo true 10 10, PathToken.LineTo true 20 0]
        CurrentLine.new [] =
        processTokens flatNone [PathToken.LineTo true 10 10, PathToken.LineTo true 20 0]
          (⟨[⟨0, 0⟩], none⟩ : CurrentLine) [] := rfl
    have step2 := processTokens_lineTo flatNone [⟨10, 10⟩, ⟨20, 0⟩]
      ⟨[⟨0, 0⟩], none⟩ [] ⟨0, 0⟩ (by simp) hsep
    simp only [List.map_cons, List.map_nil] at step2
    rw [step1, step2]
    simp [CurrentLine.is_valid, CurrentLine.finish]
  have hstep : vwStep FLATTENING_TOLERANCE ([⟨0, 0⟩, ⟨10, 10⟩, ⟨20, 0⟩] : Polyline) = none := by
    have ht : interiorAreas ([⟨0, 0⟩, ⟨10, 10⟩, ⟨20, 0⟩] : Polyline) = [100] := by
      simp [interiorAreas, triArea, ratAbs]
      norm_num
    have h100 : ¬((100 : ℚ) < FLATTENING_TOLERANCE) := by
      rw [FLATTENING_TOLERANCE_eq]
      norm_num
    unfold vwStep
    rw [ht]
    rw [show minWithIdx [(100 : ℚ)] = some (0, 100) from rfl]
    simp [h100]
  have hvw : simplify [([⟨0, 0⟩, ⟨10, 10⟩, ⟨20, 0⟩] : Polyline)] =
      [([⟨0, 0⟩, ⟨10, 10⟩, ⟨20, 0⟩] : Polyline)] := by
    simp only [simplify, simplifyOne, List.length_cons, List.length_nil]
    norm_num
    unfold simplifyvw
    exact vwGo_of_vwStep_none _ _ _ hstep
  unfold parse parsePaths
  rw [if_pos rfl, hpp]
  rw [show parsePaths flatNone ([] : List SvgEvent) = Except.ok [] from rfl]
  simpa using hvw

/-- C7: `CurrentLine::close` fails with the invalid-state error on a buffer
of fewer than 2 points, leaving the buffer unchanged; on a buffer of length
L ≥ 2 it appends a copy of the first point — giving length L + 1 with equal
first and last points — and records that first point as `prev_end`. -/
theorem close_spec (cl : CurrentLine) :
    (cl.line.length < 2 →
      cl.close = (cl, Except.error "Lines with less than 2 coordinate pairs cannot be closed.")) ∧
    (∀ p, cl.line.head? = some p → 2 ≤ cl.line.length →
      cl.close = ({ line := cl.line ++ [p], prev_end := some p }, Except.ok ()) ∧
      (cl.close).1.line.length = cl.line.length + 1 ∧
      (cl.close).1.line.head? = some p ∧
      (cl.close).1.line.getLast? = some p) := by
  obtain ⟨l, pe⟩ := cl
  cases l with
  | nil =>
      refine ⟨fun _ => rfl, fun p hp _ => ?_⟩
      simp at hp
  | cons a t =>
      cases t with
      | nil =>
          refine ⟨fun _ => rfl, fun p hp h2 => ?_⟩
          simp at h2
      | cons b t2 =>
          constructor
          · intro hlt
            simp at hlt
            exact absurd hlt (by omega)
          · intro p hp h2
            have hpa : p = a := by
              simp only [List.head?_cons, Option.some.injEq] at hp
              exact hp.symm
            subst hpa
            refine ⟨rfl, ?_, ?_, ?_⟩
            · simp [CurrentLine.close]
            · simp [CurrentLine.close]
            · show ((p :: b :: t2) ++ [p]).getLast? = some p
              exact List.getLast?_concat _

/-- Witness for `close_spec` on the concrete buffer [(1,2),(2,3)]. -/
theorem close_spec_witness :
    CurrentLine.close ⟨[⟨1, 2⟩, ⟨2, 3⟩], none⟩ =
      ({ line := [⟨1, 2⟩, ⟨2, 3⟩, ⟨1, 2⟩], prev_end := some ⟨1, 2⟩ }, Except.ok ()) := by
  have h := ((close_spec ⟨[⟨1, 2⟩, ⟨2, 3⟩], none⟩).2 ⟨1, 2⟩ rfl (by simp)).1
  simpa using h

/-- C8: every polyline in a list returned (without a panic) by the top-level
`parse` has at least 2 points: `parse_path` commits only `is_valid` buffers
and the final `simplify` pass never emits a shorter polyline — its 2-point
branch emits pairs, and its Visvalingam–Whyatt branch never removes the
endpoints of its (≥ 3 point) input. -/
theorem parse_output_min_length (F : Flattener) (events : List SvgEvent)
    (res : List Polyline) (h : parse F events = Except.ok res) :
    ∀ q ∈ res, 2 ≤ q.length := by
  unfold parse at h
  cases hp : parsePaths F events with
  | error e => rw [hp] at h; cases h
  | ok pls =>
      rw [hp] at h
      cases h
      exact simplify_mem_length pls

/-- Witness for `parse_output_min_length` at a concrete 3-point path. -/
theorem parse_output_min_length_witness :
    2 ≤ ([⟨0, 0⟩, ⟨10, 10⟩, ⟨20, 0⟩] : Polyline).length :=
  parse_output_min_length flatNone
    [SvgEvent.attr "d" [PathToken.MoveTo true 0 0, PathToken.LineTo true 10 10,
      PathToken.LineTo true 20 0]]
    [([⟨0, 0⟩, ⟨10, 10⟩, ⟨20, 0⟩] : Polyline)] parse_three_point_eval
    ([⟨0, 0⟩, ⟨10, 10⟩, ⟨20, 0⟩] : Polyline) (by simp)

/-- C9: when `parse` returns a list (no panic), `svg_str_to_polylines`
writes its two out-parameters and returns 0 exactly when the list is
nonempty; on an empty list it returns 1 and leaves both out-parameters at
their old values, so the out-parameters do not distinguish an empty
document from that failure code. -/
theorem ffi_out_spec (F : Flattener) (events : List SvgEvent)
    (old_polylines : List Polyline) (old_len : Nat) (vec : List Polyline)
    (h : parse F events = Except.ok vec) :
    (0 < vec.length →
      svg_str_to_polylines F events old_polylines old_len = Except.ok ⟨0, vec, vec.length⟩) ∧
    (vec.length = 0 →
      svg_str_to_polylines F events old_polylines old_len =
        Except.ok ⟨1, old_polylines, old_len⟩) ∧
    (∀ out, svg_str_to_polylines F events old_polylines old_len = Except.ok out →
      (out.ret = 0 ↔ 0 < vec.length)) := by
  have key : svg_str_to_polylines F events old_polylines old_len =
      if vec.length > 0 then Except.ok ⟨0, vec, vec.length⟩
      else Except.ok ⟨1, old_polylines, old_len⟩ := by
    unfold svg_str_to_polylines
    rw [h]
  refine ⟨?_, ?_, ?_⟩
  · intro hlen
    rw [key, if_pos hlen]
  · intro hlen
    rw [key, if_neg (show ¬vec.length > 0 by omega)]
  · intro out hout
    rw [key] at hout
    by_cases hlen : vec.length > 0
    · rw [if_pos hlen] at hout
      cases hout
      simp [hlen]
    · rw [if_neg hlen] at hout
      cases hout
      simpa using hlen
/-- Witness for `ffi_out_spec`: one polyline parsed, so the status code is 0
and both out-parameters are written. -/
theorem ffi_out_spec_witness :
    svg_str_to_polylines flatNone
      [SvgEvent.attr "d" [PathToken.MoveTo true 0 0, PathToken.LineTo true 10 10,
        PathToken.LineTo true 20 0]] [] 7 =
      Except.ok ⟨0, [([⟨0, 0⟩, ⟨10, 10⟩, ⟨20, 0⟩] : Polyline)], 1⟩ :=
  (ffi_out_spec flatNone
    [SvgEvent.attr "d" [PathToken.MoveTo true 0 0, PathToken.LineTo true 10 10,
      PathToken.LineTo true 20 0]] [] 7
    [([⟨0, 0⟩, ⟨10, 10⟩, ⟨20, 0⟩] : Polyline)] parse_three_point_eval).1 (by simp)

/-- C10: the `prev_end` field is written only by a successful close:
`finish`, `add_absolute`, `add_relative` and `add` all leave it unchanged
(first four conjuncts); a successful close sets it to the buffer's first
point and a failing close leaves the whole state unchanged (fifth and sixth
conjuncts); consequently a relative pair added right after a `finish`
resolves against the recorded `prev_end` (last conjunct). -/
theorem prev_end_frame (cl : CurrentLine) (abs : Bool) (pair : CoordinatePair) :
    cl.finish.2.prev_end = cl.prev_end ∧
    (cl.add_absolute pair).prev_end = cl.prev_end ∧
    (cl.add_relative pair).prev_end = cl.prev_end ∧
    (cl.add abs pair).prev_end = cl.prev_end ∧
    (∀ p, cl.line.head? = some p → 2 ≤ cl.line.length →
      (cl.close).1.prev_end = some p) ∧
    (cl.line.length < 2 → (cl.close).1 = cl) ∧
    (∀ pe, cl.prev_end = some pe →
      (cl.finish.2.add false pair).line =
        [CoordinatePair.new (pe.x + pair.x) (pe.y + pair.y)]) := by
  refine ⟨rfl, rfl, add_relative_prev_end cl pair, add_prev_end cl abs pair, ?_, ?_, ?_⟩
  · intro p hp h2
    obtain ⟨l, pe⟩ := cl
    match l, hp, h2 with
    | a :: b :: t, hp, _ =>
        simp only [List.head?_cons, Option.some.injEq] at hp
        subst hp
        rfl
    | [a], hp, h2 => simp at h2
  · intro hlt
    obtain ⟨l, pe⟩ := cl
    match l, hlt with
    | [], _ => rfl
    | [a], _ => rfl
    | a :: b :: t, hlt => exact absurd (by simpa using hlt) (by omega)
  · intro pe hpe
    simp [CurrentLine.finish, CurrentLine.add, CurrentLine.last_pair,
      CurrentLine.add_relative, hpe, CurrentLine.add_absolute]

/-- Witness for `prev_end_frame` on a concrete closed-and-finished state:
the relative pair (2,2) resolves against the recorded previous end (5,5). -/
theorem prev_end_frame_witness :
    ((CurrentLine.finish ⟨[⟨1, 1⟩, ⟨3, 3⟩], some ⟨5, 5⟩⟩).2.add false ⟨2, 2⟩).line =
      [(⟨7, 7⟩ : CoordinatePair)] := by
  have h := (prev_end_frame ⟨[⟨1, 1⟩, ⟨3, 3⟩], some ⟨5, 5⟩⟩ false ⟨2, 2⟩).2.2.2.2.2.2
    ⟨5, 5⟩ rfl
  rw [h]
  simp [CoordinatePair.new]
  norm_num
